import Mathlib

/-!
Verification of the dockerclean repository (src/dockerclean.py) against its
natural-language specification.

The Python program is shallowly embedded: pure functions become Lean
functions over String and List Char; datetimes are modelled as integer
instants (aware datetime comparison in Python compares absolute instants,
so a single integer timeline is faithful); the external docker command
interface is an oracle of type String to Except Err PResponse; fallible
Python code (exceptions) returns Except.  Python str operations used by the
source (strip, splitlines, split with maxsplit, startswith, slicing, join)
are implemented character-by-character over List Char so that every
definition is executable by the kernel.
-/

namespace Dockerclean

/-! ## Python string primitives, modelled over List Char -/

/-- Model of Python str.strip with no argument: remove leading and trailing
whitespace characters. -/
def pyStrip (s : List Char) : List Char :=
  ((s.dropWhile Char.isWhitespace).reverse.dropWhile Char.isWhitespace).reverse

/-- Split a character list on every occurrence of the separator character. -/
def splitChar (sep : Char) : List Char → List (List Char)
  | [] => [[]]
  | c :: cs =>
    if c = sep then [] :: splitChar sep cs
    else
      match splitChar sep cs with
      | [] => [[c]]
      | r :: rs => (c :: r) :: rs

/-- Model of Python s.strip().splitlines() as used throughout the source on
command output: strip surrounding whitespace, then split on newline; the
empty string yields no lines. -/
def stripSplitlines (s : String) : List String :=
  let t := pyStrip s.data
  if t = [] then [] else (splitChar '\n' t).map String.mk

/-- Model of Python s.split(sep, maxsplit): split on at most maxsplit
occurrences of the separator, keeping the remainder intact. -/
def splitPy (sep : Char) : Nat → List Char → List (List Char)
  | 0, s => [s]
  | m + 1, s =>
    let pre := s.takeWhile (fun c => ¬ c = sep)
    if pre.length = s.length then [s]
    else pre :: splitPy sep m (s.drop (pre.length + 1))

/-- Model of Python " ".join over a list of strings. -/
def joinSpace : List String → String
  | [] => ""
  | [x] => x
  | x :: y :: xs => x ++ " " ++ joinSpace (y :: xs)

/-- Model of Python s.rpartition(" ")[0]: everything before the last space,
or the empty string when the string contains no space. -/
def beforeLastSpace (s : String) : String :=
  String.mk (((s.data.reverse.dropWhile fun c => ¬ c = ' ').drop 1).reverse)

/-- Value of a decimal digit string, as Python int() computes it on the
digit group captured by the duration regular expression. -/
def natOfDigits (l : List Char) : Nat :=
  l.foldl (fun acc c => 10 * acc + (c.toNat - 48)) 0

/-! ## Data model (namedtuples and classes from the source) -/

/-- The PResponse namedtuple: stdout, stderr, code. -/
structure PResponse where
  stdout : String
  stderr : String
  code : Int
  deriving DecidableEq, Repr

/-- The ContainerData namedtuple: id, finished_at. -/
structure ContainerData where
  id : String
  finished_at : String
  deriving DecidableEq, Repr

/-- The VolumeData namedtuple: name, created. -/
structure VolumeData where
  name : String
  created : String
  deriving DecidableEq, Repr

/-- ImageData.hashfix: strip a leading "sha256:" from an identifier, else
return it unchanged.  Python str.startswith and hash[7:] are modelled at
character level. -/
def hashfix (hash : String) : String :=
  if "sha256:".data.isPrefixOf hash.data then String.mk (hash.data.drop 7)
  else hash

/-- The ImageData class: id, parent, created, repo_tags (repo_tags is the
raw template output string; the source only tests its truthiness). -/
structure ImageData where
  id : String
  parent : String
  created : String
  repo_tags : String
  deriving DecidableEq, Repr

/-- ImageData.__init__: both the identifier and the parent reference are
normalized with hashfix at construction. -/
def ImageData.init (id parent created repo_tags : String) : ImageData :=
  { id := hashfix id, parent := hashfix parent, created := created,
    repo_tags := repo_tags }

/-- The NetworkData class: id, created, containers, name; a containers field
equal to "map[]" is replaced by None in the constructor. -/
structure NetworkData where
  id : String
  created : String
  containers : Option String
  name : String
  deriving DecidableEq, Repr

/-- NetworkData.__init__ with its "map[]" to None normalization. -/
def NetworkData.init (id created containers name : String) : NetworkData :=
  { id := id, created := created,
    containers := if containers = "map[]" then none else some containers,
    name := name }

/-- Python truthiness of the containers field after construction: None and
the empty string are falsy, any other string is truthy. -/
def truthy : Option String → Bool
  | none => false
  | some s => ¬ s = ""

/-! ## Duration (the duration string to timedelta conversion) -/

/-- Duration.__new__: convert a duration string to a timedelta, modelled as
a number of minutes.  The source matches the string against the regular
expression (\d+)([mh]) with re.match, which anchors only at the start of
the string: a leading group of digits followed by one unit character
matches even when further characters follow.  No match raises ValueError,
modelled as none. -/
def Duration (s : String) : Option Nat :=
  let digits := s.data.takeWhile Char.isDigit
  let rest := s.data.drop digits.length
  match digits, rest with
  | [], _ => none
  | _, [] => none
  | _, c :: _ =>
    if c = 'm' then some (natOfDigits digits)
    else if c = 'h' then some (60 * natOfDigits digits)
    else none

/-! ## Failure taxonomy -/

/-- Failures that can abort a procedure: a command timeout, a non-zero exit
(subprocess.CalledProcessError, carrying the code and captured output), a
timestamp or line-layout parse failure (ValueError / TypeError), a missing
dictionary key in the image lineage walk (KeyError), and non-termination of
the lineage walk on cyclic parent data (the Python while loop would hang;
the fuelled model reports it explicitly). -/
inductive Err where
  | timeoutExpired
  | calledProcessError (code : Int) (output : String)
  | parseError (s : String)
  | keyError (k : String)
  | nonTermination
  deriving DecidableEq, Repr

/-! ## run_command: the two platform implementations -/

/-- Outcome of one run_command invocation, at the level of what the caller
can observe: a normal response, a distinguished timeout failure
(subprocess.TimeoutExpired), or a generic command failure
(subprocess.CalledProcessError). -/
inductive RunResult where
  | ok (r : PResponse)
  | timeoutExpired
  | calledProcessError (code : Int) (output : String)
  deriving DecidableEq, Repr

/-- The Python 3 branch of run_command: subprocess.run raises TimeoutExpired
when the timeout elapses; otherwise, with check set, a non-zero exit raises
CalledProcessError.  timedOut says whether the timeout elapsed and res is
the process result otherwise. -/
def run_command_py3 (timedOut : Bool) (res : PResponse) (check : Bool) :
    RunResult :=
  if timedOut then .timeoutExpired
  else if check ∧ ¬ res.code = 0 then .calledProcessError res.code res.stdout
  else .ok res

/-- The Python 2 branch of run_command: on SIGALRM the handler raises, the
except branch sets stdout and stderr to empty and code to -1 (after
SIGTERM, a two second sleep, and SIGKILL if still alive), and control falls
through to the common epilogue, which raises CalledProcessError whenever
the code is non-zero and check is set, and otherwise returns the
response. -/
def run_command_py2 (timedOut : Bool) (res : PResponse) (check : Bool) :
    RunResult :=
  let retval : PResponse := if timedOut then ⟨"", "", -1⟩ else res
  if ¬ retval.code = 0 ∧ check then .calledProcessError retval.code retval.stdout
  else .ok retval

/-! ## older_than: the age comparator -/

/-- Timestamp parsing is delegated to dateutil in the source; it is modelled
as an oracle from timestamp strings to optional integer instants (none is a
ValueError).  Instants, the current time and durations all live on one
integer timeline: Python compares timezone-aware datetimes by absolute
instant, and the source builds "now" in the timezone of the parsed
timestamp precisely so that the comparison is the absolute one. -/
def TParse : Type := String → Option Int

/-- older_than: parse the timestamp (retrying, after a ValueError, on the
string truncated at its last space, which is how the alternate format from
docker network inspect is accommodated), then test whether the parsed
instant is strictly before now minus age.  A second parse failure
propagates as a parse error. -/
def older_than (tparse : TParse) (now : Int) (timestamp : String)
    (age : Int) : Except Err Bool :=
  match tparse timestamp with
  | some t => .ok (decide (t < now - age))
  | none =>
    match tparse (beforeLastSpace timestamp) with
    | some t => .ok (decide (t < now - age))
    | none => .error (.parseError timestamp)

/-! ## Exception-propagating list traversals

Python list comprehensions evaluate left to right and let the first raised
exception escape; these two helpers model comprehensions whose element
computation can fail. -/

/-- Map a fallible function over a list, propagating the first failure. -/
def mapE (f : α → Except Err β) : List α → Except Err (List β)
  | [] => .ok []
  | a :: as =>
    match f a with
    | .error e => .error e
    | .ok b =>
      match mapE f as with
      | .error e => .error e
      | .ok bs => .ok (b :: bs)

/-- Filter a list with a fallible predicate, propagating the first
failure. -/
def filterE (p : α → Except Err Bool) : List α → Except Err (List α)
  | [] => .ok []
  | a :: as =>
    match p a with
    | .error e => .error e
    | .ok b =>
      match filterE p as with
      | .error e => .error e
      | .ok xs => .ok (if b then a :: xs else xs)

/-! ## Inventory line decoding

Each inspect output line is split on the pipe character with the same
maxsplit as the source and handed to the record constructor; a line with
too few fields makes the constructor call raise (TypeError), modelled as a
parse error. -/

/-- Decode one line of docker container inspect output. -/
def parseContainerLine (line : String) : Except Err ContainerData :=
  match splitPy '|' 1 line.data with
  | [a, b] => .ok ⟨String.mk a, String.mk b⟩
  | _ => .error (.parseError line)

/-- Decode one line of docker image inspect output. -/
def parseImageLine (line : String) : Except Err ImageData :=
  match splitPy '|' 3 line.data with
  | [a, b, c, d] =>
      .ok (ImageData.init (String.mk a) (String.mk b) (String.mk c)
        (String.mk d))
  | _ => .error (.parseError line)

/-- Decode one line of docker network inspect output. -/
def parseNetworkLine (line : String) : Except Err NetworkData :=
  match splitPy '|' 3 line.data with
  | [a, b, c, d] =>
      .ok (NetworkData.init (String.mk a) (String.mk b) (String.mk c)
        (String.mk d))
  | _ => .error (.parseError line)

/-- Decode one line of docker volume inspect output. -/
def parseVolumeLine (line : String) : Except Err VolumeData :=
  match splitPy '|' 1 line.data with
  | [a, b] => .ok ⟨String.mk a, String.mk b⟩
  | _ => .error (.parseError line)

/-! ## Image lineage walk -/

/-- Failures of the lineage walk: a parent identifier absent from the image
dictionary (KeyError), or fuel exhaustion, which only happens on cyclic
parent links, where the Python while loop does not terminate. -/
inductive WalkErr where
  | keyError (k : String)
  | noFuel
  deriving DecidableEq, Repr

/-- Lookup in the dictionary keyed by normalized image id.  The Python dict
comprehension keeps the last record for a repeated key, hence the reversed
search. -/
def imgLookup (image_data : List ImageData) (k : String) : Option ImageData :=
  image_data.reverse.find? (fun i => i.id == k)

/-- Keep the first occurrence of every element, in order: the key order of
a Python dict comprehension is the first-occurrence order of the keys. -/
def firstOccur : List String → List String
  | [] => []
  | a :: as => a :: (firstOccur as).filter (fun b => ¬ b = a)

/-- The keys of the image dictionary, in insertion order. -/
def dictKeys (image_data : List ImageData) : List String :=
  firstOccur (image_data.map fun i => i.id)

/-- Model of the image dictionary built by the dict comprehension: the list
of its values, one record per normalized id, namely the last parsed record
with that id (dict assignment overwrites), keyed in first-occurrence order.
Every later consumer of image_data in the source (the lineage lookups, the
untagged and old sets) reads the dictionary, never the raw parsed list, so
shadowed duplicate records are never consulted. -/
def dictValues (image_data : List ImageData) : List ImageData :=
  (dictKeys image_data).filterMap (fun k => imgLookup image_data k)

/-- The while loop of prune_images: starting from an image, collect its id
and then the ids of its successive parents until an image with an empty
parent reference.  fuel bounds the number of parent steps; image_data.length
steps always suffice on acyclic data, because the chain cannot revisit a
record without looping forever. -/
def lineage (image_data : List ImageData) : Nat → ImageData →
    Except WalkErr (List String)
  | 0, img =>
    if img.parent = "" then .ok [img.id] else .error .noFuel
  | fuel + 1, img =>
    if img.parent = "" then .ok [img.id]
    else
      match imgLookup image_data img.parent with
      | none => .error (.keyError img.parent)
      | some p =>
        match lineage image_data fuel p with
        | .error e => .error e
        | .ok l => .ok (img.id :: l)

/-- The lineages loop of prune_images: one lineage per nominally-used image
(looked up in the dictionary first, KeyError if absent), flattened.  The
source stores the chains in a list of lists and flattens into a set;
membership in the flattened list is what the pruning set algebra uses. -/
def allUsedImages (image_data : List ImageData) (fuel : Nat) :
    List String → Except WalkErr (List String)
  | [] => .ok []
  | u :: us =>
    match imgLookup image_data u with
    | none => .error (.keyError u)
    | some img =>
      match lineage image_data fuel img with
      | .error e => .error e
      | .ok l =>
        match allUsedImages image_data fuel us with
        | .error e => .error e
        | .ok ls => .ok (l ++ ls)

/-! ## Selection-level set algebra

Python set(...) is modelled as List.dedup; set difference and intersection
become filters.  Each function takes the already-computed list of old
records (the records whose created timestamp passed older_than), because
older_than can fail and that failure is handled at the command level. -/

/-- The final set algebra of prune_images, with the flattened all-used list
already computed by the lineage walk: pruneable = old minus all used, and,
when not aggressive, intersected with the untagged images.  The image_data
argument is the value list of the image dictionary (dictValues of the
parsed records, one record per id), which is what the source iterates for
the untagged set; old_list is the sublist of those values that passed
older_than. -/
def pruneImagesSelectCore (image_data : List ImageData)
    (all_used : List String) (old_list : List ImageData)
    (aggressive : Bool) : List String :=
  let all_untagged_images :=
    ((image_data.filter fun i => i.repo_tags = "").map fun i => i.id).dedup
  let all_old_images := ((old_list.map fun i => i.id)).dedup
  let pruneable := all_old_images.filter fun x => ¬ x ∈ all_used
  if aggressive then pruneable
  else pruneable.filter fun x => x ∈ all_untagged_images

/-- The deletion-set computation of prune_images over the parsed inspect
records: build the dictionary (one record per id, last wins), walk the
lineages of the nominally-used images through it, and apply the set algebra
with the dictionary values whose created timestamp satisfies the age
oracle. -/
def pruneImagesSelect (parsed_images : List ImageData)
    (nominally_used : List String) (oldB : String → Bool)
    (aggressive : Bool) : Except WalkErr (List String) :=
  match allUsedImages (dictValues parsed_images)
      (dictValues parsed_images).length nominally_used with
  | .error e => .error e
  | .ok all_used =>
      .ok (pruneImagesSelectCore (dictValues parsed_images) all_used
        ((dictValues parsed_images).filter fun i => oldB i.created)
        aggressive)

/-- The deletion-set computation of prune_networks: old minus used minus
reserved, where used means a truthy containers field and reserved means one
of the three built-in network names. -/
def pruneNetworksSelect (network_data : List NetworkData)
    (old_list : List NetworkData) : List String :=
  let used_networks :=
    ((network_data.filter fun i => truthy i.containers).map fun i => i.id).dedup
  let old_networks := (old_list.map fun i => i.id).dedup
  let reserved_networks :=
    ((network_data.filter fun i =>
        i.name = "bridge" ∨ i.name = "host" ∨ i.name = "none").map
      fun i => i.id).dedup
  (old_networks.filter fun x => ¬ x ∈ used_networks).filter
    fun x => ¬ x ∈ reserved_networks

/-- The deletion-set computation of prune_volumes: the old volumes, minus
the named ones (name shorter than 64 characters) unless aggressive. -/
def pruneVolumesSelect (volume_data : List VolumeData)
    (old_list : List VolumeData) (aggressive : Bool) : List String :=
  let old_volumes := (old_list.map fun v => v.name).dedup
  let named_volumes :=
    ((volume_data.filter fun v => v.name.data.length < 64).map
      fun v => v.name).dedup
  if aggressive then old_volumes
  else old_volumes.filter fun x => ¬ x ∈ named_volumes

/-! ## Command-level procedures

The external docker interface is an oracle from command strings to
responses or failures.  Each procedure is a function returning its result
together with the exact list of commands it issued, in order; a failure
keeps the commands issued up to and including the failing one.  The command
strings are the ones the source builds (single quotes and braces written
with hexadecimal escapes). -/

/-- The docker command oracle. -/
def ExecT : Type := String → Except Err PResponse

/-- Sequence a logged, fallible computation with its continuation. -/
def bindR (x : Except Err α × List String)
    (f : α → List String → Except Err β × List String) :
    Except Err β × List String :=
  match x with
  | (.error e, log) => (.error e, log)
  | (.ok a, log) => f a log

/-- Inject a fallible value into a logged computation. -/
def pureR (x : Except Err α) (log : List String) :
    Except Err α × List String := (x, log)

/-- Issue one command through run_command and return the lines of its
stripped stdout, recording the command in the log.  A failure from the
oracle (timeout or, with check, non-zero exit) propagates. -/
def getLines (exec : ExecT) (cmd : String) (log : List String) :
    Except Err (List String) × List String :=
  match exec cmd with
  | .error e => (.error e, log ++ [cmd])
  | .ok r => (.ok (stripSplitlines r.stdout), log ++ [cmd])

def cmdContainerLs : String := "docker container ls -q --no-trunc"

def cmdContainerLsA : String := "docker container ls -a -q --no-trunc"

def cmdContainerInspect : String :=
  "docker container inspect --format \x27\x7b\x7b.ID\x7d\x7d|\x7b\x7b.State.FinishedAt\x7d\x7d\x27 "

def cmdImageLs : String := "docker image ls -a -q --no-trunc"

def cmdPsA : String := "docker ps -a -q --no-trunc"

def cmdImageOfContainer : String :=
  "docker inspect --format \x27\x7b\x7b.Image\x7d\x7d\x27 "

def cmdImageInspect : String :=
  "docker image inspect --format \x27\x7b\x7b.ID\x7d\x7d|\x7b\x7b.Parent\x7d\x7d|\x7b\x7b.Created\x7d\x7d|\x7b\x7b.RepoTags\x7d\x7d\x27 "

def cmdNetworkLs : String := "docker network ls -q --no-trunc"

def cmdNetworkInspect : String :=
  "docker network inspect --format \x27\x7b\x7b.ID\x7d\x7d|\x7b\x7b.Created\x7d\x7d|\x7b\x7b.Containers\x7d\x7d|\x7b\x7b.Name\x7d\x7d\x27 "

def cmdVolumeLs : String := "docker volume ls -q -f dangling=true"

def cmdVolumeInspect : String :=
  "docker volume inspect --format \x27\x7b\x7b.Name\x7d\x7d|\x7b\x7b.CreatedAt\x7d\x7d\x27 "

/-- prune_containers up to the computation of the deletion set: list
running and all containers, inspect the non-running ones (skipping the
inspection when there are none), and keep the ids of those whose
finished_at timestamp is older than the grace period. -/
def prune_containers_gather (exec : ExecT) (tparse : TParse)
    (now grace : Int) : Except Err (List String) × List String :=
  bindR (getLines exec cmdContainerLs []) fun l1 log =>
  bindR (getLines exec cmdContainerLsA log) fun l2 log =>
  let running_containers := l1.dedup
  let all_containers := l2.dedup
  let non_running := all_containers.filter fun x => ¬ x ∈ running_containers
  bindR
    (if non_running = [] then pureR (.ok []) log
     else
       bindR (getLines exec (cmdContainerInspect ++ joinSpace non_running)
           log) fun ls log =>
         pureR (mapE parseContainerLine ls) log)
    fun container_data log =>
  bindR (pureR (filterE
      (fun i => older_than tparse now i.finished_at grace) container_data)
    log) fun old_data log =>
  ((.ok ((old_data.map fun i => i.id).dedup)), log)

/-- prune_containers: compute the deletion set, return the empty tuple when
it is empty, otherwise issue one batched non-forced docker rm and return
the lines of its output. -/
def prune_containers (exec : ExecT) (tparse : TParse) (now grace : Int) :
    Except Err (List String) × List String :=
  bindR (prune_containers_gather exec tparse now grace) fun to_prune log =>
  if to_prune = [] then (.ok [], log)
  else
    bindR (getLines exec ("docker rm " ++ joinSpace to_prune) log)
      fun out log => (.ok out, log)

/-- prune_images up to the computation of the deletion set: list all images
(ids normalized) and all containers, fetch the image of each container
(skipped when there are no containers), inspect all images (skipped when
there are none), build the image dictionary from the parsed records (one
record per id, the last parsed one), walk the lineages of the
nominally-used images through it, and apply the set algebra with the
dictionary values older than the grace period. -/
def prune_images_gather (exec : ExecT) (tparse : TParse) (now grace : Int)
    (aggressive : Bool) : Except Err (List String) × List String :=
  bindR (getLines exec cmdImageLs []) fun l1 log =>
  bindR (getLines exec cmdPsA log) fun l2 log =>
  let all_images := (l1.map hashfix).dedup
  let all_containers := l2.dedup
  bindR
    (if all_containers = [] then pureR (.ok []) log
     else
       bindR (getLines exec (cmdImageOfContainer ++ joinSpace all_containers)
           log) fun ls log =>
         pureR (.ok ((ls.map hashfix).dedup)) log)
    fun nominally_used log =>
  bindR
    (if all_images = [] then pureR (.ok []) log
     else
       bindR (getLines exec (cmdImageInspect ++ joinSpace all_images) log)
         fun ls log =>
           pureR (mapE parseImageLine ls) log)
    fun parsed_images log =>
  let image_data := dictValues parsed_images
  bindR (pureR
      (match allUsedImages image_data image_data.length nominally_used with
       | .error (.keyError k) => .error (.keyError k)
       | .error .noFuel => .error .nonTermination
       | .ok l => .ok l)
    log) fun all_used log =>
  bindR (pureR (filterE
      (fun i => older_than tparse now i.created grace) image_data)
    log) fun old_list log =>
  ((.ok (pruneImagesSelectCore image_data all_used old_list aggressive)), log)

/-- prune_images: compute the deletion set, return the empty tuple when it
is empty, otherwise issue one batched forced docker rmi and return the
lines of its output. -/
def prune_images (exec : ExecT) (tparse : TParse) (now grace : Int)
    (aggressive : Bool) : Except Err (List String) × List String :=
  bindR (prune_images_gather exec tparse now grace aggressive)
    fun pruneable log =>
  if pruneable = [] then (.ok [], log)
  else
    bindR (getLines exec ("docker rmi -f " ++ joinSpace pruneable) log)
      fun out log => (.ok out, log)

/-- prune_networks up to the computation of the deletion set: list all
networks, inspect them (skipped when there are none), and apply the set
algebra with the networks older than the grace period. -/
def prune_networks_gather (exec : ExecT) (tparse : TParse)
    (now grace : Int) : Except Err (List String) × List String :=
  bindR (getLines exec cmdNetworkLs []) fun l1 log =>
  let all_networks := l1.dedup
  bindR
    (if all_networks = [] then pureR (.ok []) log
     else
       bindR (getLines exec (cmdNetworkInspect ++ joinSpace all_networks)
           log) fun ls log =>
         pureR (mapE parseNetworkLine ls) log)
    fun network_data log =>
  bindR (pureR (filterE
      (fun i => older_than tparse now i.created grace) network_data)
    log) fun old_list log =>
  ((.ok (pruneNetworksSelect network_data old_list)), log)

/-- prune_networks: compute the deletion set, return the empty tuple when
it is empty, otherwise issue one batched non-forced docker network rm and
return the lines of its output. -/
def prune_networks (exec : ExecT) (tparse : TParse) (now grace : Int) :
    Except Err (List String) × List String :=
  bindR (prune_networks_gather exec tparse now grace) fun prunable log =>
  if prunable = [] then (.ok [], log)
  else
    bindR (getLines exec ("docker network rm " ++ joinSpace prunable) log)
      fun out log => (.ok out, log)

/-- prune_volumes up to the computation of the deletion set: list the
dangling volumes, inspect them (skipped when there are none), and apply the
set algebra with the volumes older than the grace period. -/
def prune_volumes_gather (exec : ExecT) (tparse : TParse) (now grace : Int)
    (aggressive : Bool) : Except Err (List String) × List String :=
  bindR (getLines exec cmdVolumeLs []) fun l1 log =>
  let dangling_volumes := l1.dedup
  bindR
    (if dangling_volumes = [] then pureR (.ok []) log
     else
       bindR (getLines exec (cmdVolumeInspect ++ joinSpace dangling_volumes)
           log) fun ls log =>
         pureR (mapE parseVolumeLine ls) log)
    fun volume_data log =>
  bindR (pureR (filterE
      (fun v => older_than tparse now v.created grace) volume_data)
    log) fun old_list log =>
  ((.ok (pruneVolumesSelect volume_data old_list aggressive)), log)

/-- prune_volumes: compute the deletion set, return the empty tuple when it
is empty, otherwise issue one batched forced docker volume rm and return
the lines of its output. -/
def prune_volumes (exec : ExecT) (tparse : TParse) (now grace : Int)
    (aggressive : Bool) : Except Err (List String) × List String :=
  bindR (prune_volumes_gather exec tparse now grace aggressive)
    fun to_prune log =>
  if to_prune = [] then (.ok [], log)
  else
    bindR (getLines exec ("docker volume rm -f " ++ joinSpace to_prune) log)
      fun out log => (.ok out, log)

/-- The driver: run the four procedures in the fixed order containers,
images, networks, volumes; report the four counts on success.  An
exception from any procedure propagates, so the commands issued in a run
are exactly the concatenation of the logs of the procedures that ran, and
a failing procedure is the last one to issue any command. -/
def main (exec : ExecT) (tparse : TParse) (now grace : Int)
    (aggressive : Bool) :
    Except Err (Nat × Nat × Nat × Nat) × List String :=
  match prune_containers exec tparse now grace with
  | (.error e, log1) => (.error e, log1)
  | (.ok pruned_containers, log1) =>
    match prune_images exec tparse now grace aggressive with
    | (.error e, log2) => (.error e, log1 ++ log2)
    | (.ok pruned_images, log2) =>
      match prune_networks exec tparse now grace with
      | (.error e, log3) => (.error e, log1 ++ log2 ++ log3)
      | (.ok pruned_networks, log3) =>
        match prune_volumes exec tparse now grace aggressive with
        | (.error e, log4) => (.error e, log1 ++ log2 ++ log3 ++ log4)
        | (.ok pruned_volumes, log4) =>
          ((.ok (pruned_containers.length, pruned_images.length,
              pruned_networks.length, pruned_volumes.length)),
            log1 ++ log2 ++ log3 ++ log4)

/-! ## Specification-side ancestry

The spec describes the all-used set through ancestor chains: for each
nominally-used image, the image itself and every ancestor reached by
following parent links until an image with no parent.  InChain is that
description as an inductive relation; the lemmas connect it to the fuelled
walk the code performs. -/

/-- x is the id of img or of one of its ancestors along parent links. -/
inductive InChain (image_data : List ImageData) : ImageData → String → Prop
  | self (img : ImageData) : InChain image_data img img.id
  | step (img p : ImageData) (x : String) :
      ¬ img.parent = "" →
      imgLookup image_data img.parent = some p →
      InChain image_data p x →
      InChain image_data img x

theorem mem_of_lineage {image_data : List ImageData} {fuel : Nat}
    {img : ImageData} {l : List String} {x : String}
    (h : lineage image_data fuel img = .ok l) (hx : x ∈ l) :
    InChain image_data img x := by
  induction fuel generalizing img l with
  | zero =>
    simp only [lineage] at h
    split at h
    · cases h
      rcases List.mem_singleton.mp hx with rfl
      exact InChain.self img
    · cases h
  | succ fuel ih =>
    simp only [lineage] at h
    split at h
    · cases h
      rcases List.mem_singleton.mp hx with rfl
      exact InChain.self img
    · rename_i hne
      cases hlook : imgLookup image_data img.parent with
      | none => simp only [hlook] at h; cases h
      | some p =>
        simp only [hlook] at h
        cases hrec : lineage image_data fuel p with
        | error e => simp only [hrec] at h; cases h
        | ok l' =>
          simp only [hrec] at h
          cases h
          rcases List.mem_cons.mp hx with rfl | hx'
          · exact InChain.self img
          · exact InChain.step img p x hne hlook (ih hrec hx')

theorem lineage_of_mem {image_data : List ImageData} {img : ImageData}
    {x : String} (hc : InChain image_data img x) :
    ∀ fuel l, lineage image_data fuel img = .ok l → x ∈ l := by
  induction hc with
  | self img =>
    intro fuel l h
    cases fuel with
    | zero =>
      simp only [lineage] at h
      split at h
      · cases h; exact List.mem_singleton.mpr rfl
      · cases h
    | succ fuel =>
      simp only [lineage] at h
      split at h
      · cases h; exact List.mem_singleton.mpr rfl
      · cases hlook : imgLookup image_data img.parent with
        | none => simp only [hlook] at h; cases h
        | some p =>
          simp only [hlook] at h
          cases hrec : lineage image_data fuel p with
          | error e => simp only [hrec] at h; cases h
          | ok l' => simp only [hrec] at h; cases h; exact List.mem_cons_self _ _
  | step img p y hne hlook hchain ih =>
    intro fuel l h
    cases fuel with
    | zero =>
      simp only [lineage] at h
      split at h
      · rename_i hp; exact absurd hp hne
      · cases h
    | succ fuel =>
      simp only [lineage] at h
      split at h
      · rename_i hp; exact absurd hp hne
      · simp only [hlook] at h
        cases hrec : lineage image_data fuel p with
        | error e => simp only [hrec] at h; cases h
        | ok l' =>
          simp only [hrec] at h
          cases h
          exact List.mem_cons_of_mem _ (ih fuel l' hrec)

theorem lineage_mem_iff {image_data : List ImageData} {fuel : Nat}
    {img : ImageData} {l : List String} {x : String}
    (h : lineage image_data fuel img = .ok l) :
    x ∈ l ↔ InChain image_data img x :=
  ⟨mem_of_lineage h, fun hc => lineage_of_mem hc fuel l h⟩

theorem allUsedImages_mem_iff {image_data : List ImageData} {fuel : Nat}
    {used : List String} {L : List String}
    (h : allUsedImages image_data fuel used = .ok L) (x : String) :
    x ∈ L ↔ ∃ u ∈ used, ∃ img, imgLookup image_data u = some img ∧
      InChain image_data img x := by
  induction used generalizing L with
  | nil =>
    simp only [allUsedImages] at h
    cases h
    simp
  | cons u us ih =>
    simp only [allUsedImages] at h
    cases hlook : imgLookup image_data u with
    | none => simp only [hlook] at h; cases h
    | some img =>
      simp only [hlook] at h
      cases hlin : lineage image_data fuel img with
      | error e => simp only [hlin] at h; cases h
      | ok l =>
        simp only [hlin] at h
        cases hrec : allUsedImages image_data fuel us with
        | error e => simp only [hrec] at h; cases h
        | ok ls =>
          simp only [hrec] at h
          cases h
          constructor
          · intro hx
            rcases List.mem_append.mp hx with hx | hx
            · exact ⟨u, List.mem_cons_self u us, img, hlook,
                (lineage_mem_iff hlin).mp hx⟩
            · rcases (ih hrec).mp hx with ⟨u', hu', img', hl', hc'⟩
              exact ⟨u', List.mem_cons_of_mem _ hu', img', hl', hc'⟩
          · rintro ⟨u', hu', img', hl', hc'⟩
            rcases List.mem_cons.mp hu' with rfl | hu'
            · simp only [hlook] at hl'
              cases hl'
              exact List.mem_append.mpr (.inl ((lineage_mem_iff hlin).mpr hc'))
            · exact List.mem_append.mpr (.inr ((ih hrec).mpr ⟨u', hu', img', hl', hc'⟩))

/-! ## hashfix lemmas -/

theorem hashfix_strip (x : String) : hashfix ("sha256:" ++ x) = x := by
  unfold hashfix
  rw [if_pos]
  · rw [String.data_append,
      show (7 : Nat) = ("sha256:".data).length from rfl, List.drop_left]
  · rw [String.data_append]
    exact List.isPrefixOf_iff_prefix.mpr (List.prefix_append _ _)

theorem hashfix_id_of_not_sha {x : String}
    (h : "sha256:".data.isPrefixOf x.data = false) : hashfix x = x := by
  unfold hashfix
  rw [h]
  rfl

/-! ## Claim theorems -/

/-- C1 (code_bug).  The claim (and the spec) say every string that is not
exactly digits followed by one unit character m or h is a configuration
error, naming "1h30m" as an error case.  The code matches the duration
regular expression with re.match, which does not anchor at the end of the
string, so "1h30m" is silently accepted as one hour (60 minutes) instead of
raising, contradicting the argparse help text of the source ("Must be a
number followed by m for minutes or h for hours").  The good cases and the
missing-unit error case behave as claimed. -/
theorem duration_regex_not_anchored :
    Duration "90m" = some 90 ∧
    Duration "24h" = some (24 * 60) ∧
    Duration "24" = none ∧
    Duration "1h30m" = some 60 := by
  decide

/-- Concrete timestamp-parse oracle for the C3 instances: tsA parses to
instant 880 (two hours before now = 1000, in minutes) and tsB to 970
(thirty minutes before now). -/
def tparseC3 : TParse := fun s =>
  if s = "tsA" then some 880 else if s = "tsB" then some 970 else none

/-- C3 (confirmed).  For every parseable timestamp, older_than returns true
iff the parsed instant is strictly earlier than now minus the duration
(instants are modelled on one absolute timeline, which is what comparing
timezone-aware datetimes does in the source); with now = 1000 and a
one-hour (60 minute) duration, a timestamp two hours old is older and a
timestamp thirty minutes old is not. -/
theorem older_than_spec :
    (∀ (tparse : TParse) (now age : Int) (s : String) (t : Int),
      tparse s = some t →
      older_than tparse now s age = .ok (decide (t < now - age))) ∧
    older_than tparseC3 1000 "tsA" 60 = .ok true ∧
    older_than tparseC3 1000 "tsB" 60 = .ok false := by
  refine ⟨?_, rfl, rfl⟩
  intro tparse now age s t h
  unfold older_than
  simp only [h]

/-- Witness for C3: the general clause applied at the concrete oracle,
timestamp tsA, now = 1000 and age = 60, the hypothesis discharged by
evaluation. -/
theorem older_than_spec_witness :
    older_than tparseC3 1000 "tsA" 60 = .ok (decide ((880 : Int) < 1000 - 60)) :=
  older_than_spec.1 tparseC3 1000 60 "tsA" 880 (by decide)

/-- Concrete timestamp-parse oracle for the C8 instances: the two-word
string fails to parse, its truncation parses. -/
def tparseC8 : TParse := fun s =>
  if s = "a b" then none else if s = "a" then some 0 else none

/-- C8 (confirmed).  When the first parse of a timestamp fails, older_than
retries on the string truncated at its last space; when both parses fail
the parse error propagates to the caller instead of the timestamp being
treated as not old; and the trailing-word network-inspect format is
truncated to its machine-parsable part. -/
theorem older_than_retry_spec :
    (∀ (tparse : TParse) (now age : Int) (s : String) (t : Int),
      tparse s = none → tparse (beforeLastSpace s) = some t →
      older_than tparse now s age = .ok (decide (t < now - age))) ∧
    (∀ (tparse : TParse) (now age : Int) (s : String),
      tparse s = none → tparse (beforeLastSpace s) = none →
      older_than tparse now s age = .error (.parseError s)) ∧
    beforeLastSpace "2018-10-17 10:25:39.654628506 -0500 CDT" =
      "2018-10-17 10:25:39.654628506 -0500" := by
  refine ⟨?_, ?_, by decide⟩
  · intro tparse now age s t h1 h2
    unfold older_than
    simp only [h1, h2]
  · intro tparse now age s h1 h2
    unfold older_than
    simp only [h1, h2]

/-- Witness for C8: the retry clause applied at the concrete oracle, the
hypotheses discharged by evaluation. -/
theorem older_than_retry_spec_witness :
    older_than tparseC8 5 "a b" 2 = .ok (decide ((0 : Int) < 5 - 2)) :=
  older_than_retry_spec.1 tparseC8 5 2 "a b" 0 (by decide) (by decide)

/-- C4 (corrected): counterexample.  At a timed-out invocation with check
set, the Python 3 implementation reports the distinguished TimeoutExpired
failure but the Python 2 implementation does not: it reports the same
generic CalledProcessError a normal non-zero exit produces (the response
with sentinel code -1), so the two contracts are not identical and the
Python 2 timeout failure is not distinguished from a non-zero-exit
failure. -/
theorem run_command_timeout_counterexample :
    run_command_py3 true ⟨"out", "err", 0⟩ true = RunResult.timeoutExpired ∧
    ¬ run_command_py2 true ⟨"out", "err", 0⟩ true = RunResult.timeoutExpired ∧
    run_command_py2 true ⟨"out", "err", 0⟩ true =
      run_command_py2 false ⟨"", "", -1⟩ true := by
  decide

/-- C4 (corrected): the amended contract.  On timeout the Python 3 path
reports the distinguished TimeoutExpired failure; the Python 2 path instead
substitutes the sentinel response (empty output, code -1) and then follows
the ordinary exit-code path: with check it reports a generic
CalledProcessError with code -1 (indistinguishable from a real non-zero
exit with that code), and without check it returns the sentinel response as
if the command had completed.  The graceful-then-forceful termination
(SIGTERM, two-second sleep, SIGKILL) is performed only by the Python 2
path; Python 3 delegates termination to the standard library. -/
theorem run_command_timeout_contract :
    (∀ (res : PResponse) (check : Bool),
      run_command_py3 true res check = RunResult.timeoutExpired) ∧
    (∀ res : PResponse,
      run_command_py2 true res true = RunResult.calledProcessError (-1) "") ∧
    (∀ res : PResponse,
      run_command_py2 true res false = RunResult.ok ⟨"", "", -1⟩) ∧
    (∀ res : PResponse,
      run_command_py2 true res true = run_command_py2 false ⟨"", "", -1⟩ true) := by
  refine ⟨fun res check => rfl, fun res => rfl, fun res => rfl, fun res => rfl⟩

/-- C7 (corrected): counterexample.  The claim quantifies over every
identifier x; for x itself carrying the hash prefix, prefixing once more
and normalizing does not agree with normalizing x: the normalized forms
differ, so they are not equal for set-membership purposes. -/
theorem hashfix_double_sha_counterexample :
    ¬ hashfix ("sha256:" ++ "sha256:abcd") = hashfix "sha256:abcd" := by
  decide

/-- C7 (corrected): the amended claim.  Normalization strips the "sha256:"
prefix when present and leaves the identifier unchanged otherwise, and for
every identifier x that does not itself begin with "sha256:", the
normalized forms of "sha256:" prefixed x and of bare x are equal; an
ImageData record normalizes its own identifier and its parent reference
with the same function at construction. -/
theorem hashfix_normalization :
    (∀ x : String, "sha256:".data.isPrefixOf x.data = false →
      hashfix ("sha256:" ++ x) = hashfix x) ∧
    (∀ id parent created repo_tags : String,
      (ImageData.init id parent created repo_tags).id = hashfix id ∧
      (ImageData.init id parent created repo_tags).parent = hashfix parent) := by
  constructor
  · intro x h
    rw [hashfix_strip, hashfix_id_of_not_sha h]
  · intro id parent created repo_tags
    exact ⟨rfl, rfl⟩

/-- Witness for C7: the amended claim applied at the bare identifier
"abcd", the non-prefixed hypothesis discharged by evaluation. -/
theorem hashfix_normalization_witness :
    hashfix ("sha256:" ++ "abcd") = hashfix "abcd" :=
  hashfix_normalization.1 "abcd" (by decide)

/-! ## Membership in the set-algebra building blocks -/

theorem mem_dedup_map_filter {α : Type} {p : α → Bool} {f : α → String}
    {l : List α} {x : String} :
    x ∈ ((l.filter p).map f).dedup ↔ ∃ i ∈ l, f i = x ∧ p i = true := by
  simp only [List.mem_dedup, List.mem_map, List.mem_filter]
  constructor
  · rintro ⟨a, ⟨ha, hp⟩, rfl⟩
    exact ⟨a, ha, rfl, hp⟩
  · rintro ⟨a, ha, rfl, hp⟩
    exact ⟨a, ⟨ha, hp⟩, rfl⟩

theorem mem_dedup_map {α : Type} {f : α → String} {l : List α} {x : String} :
    x ∈ (l.map f).dedup ↔ ∃ i ∈ l, f i = x := by
  simp only [List.mem_dedup, List.mem_map]

/-- C5 (confirmed).  For every network inventory, the deletion set is
exactly old minus used minus reserved: an identifier is selected iff it
belongs to an old network, to no network with a truthy attached-containers
field, and to no network with one of the three reserved names; in
particular a network named bridge, host or none is never selected,
regardless of age or usage. -/
theorem prune_networks_select_spec :
    (∀ (network_data : List NetworkData) (oldB : String → Bool) (x : String),
      x ∈ pruneNetworksSelect network_data
          (network_data.filter fun i => oldB i.created) ↔
        ((∃ i ∈ network_data, i.id = x ∧ oldB i.created = true) ∧
         (¬ ∃ i ∈ network_data, i.id = x ∧ truthy i.containers = true) ∧
         (¬ ∃ i ∈ network_data, i.id = x ∧
            (i.name = "bridge" ∨ i.name = "host" ∨ i.name = "none")))) ∧
    (∀ (network_data : List NetworkData) (oldB : String → Bool)
       (n : NetworkData), n ∈ network_data →
      (n.name = "bridge" ∨ n.name = "host" ∨ n.name = "none") →
      ¬ n.id ∈ pruneNetworksSelect network_data
          (network_data.filter fun i => oldB i.created)) := by
  have h1 : ∀ (network_data : List NetworkData) (oldB : String → Bool)
      (x : String),
      x ∈ pruneNetworksSelect network_data
          (network_data.filter fun i => oldB i.created) ↔
        ((∃ i ∈ network_data, i.id = x ∧ oldB i.created = true) ∧
         (¬ ∃ i ∈ network_data, i.id = x ∧ truthy i.containers = true) ∧
         (¬ ∃ i ∈ network_data, i.id = x ∧
            (i.name = "bridge" ∨ i.name = "host" ∨ i.name = "none"))) := by
    intro network_data oldB x
    unfold pruneNetworksSelect
    rw [List.mem_filter, List.mem_filter]
    simp only [decide_eq_true_eq]
    rw [mem_dedup_map_filter, mem_dedup_map_filter, mem_dedup_map_filter]
    simp only [decide_eq_true_eq]
    tauto
  refine ⟨h1, ?_⟩
  intro network_data oldB n hn hname hmem
  rcases (h1 network_data oldB n.id).mp hmem with ⟨_, _, hres⟩
  exact hres ⟨n, hn, rfl, hname⟩

/-- Witness for C5: the reserved-name clause applied to a concrete old,
unused network named bridge, the hypotheses discharged concretely. -/
theorem prune_networks_select_spec_witness :
    ¬ (NetworkData.init "n1" "old" "map[]" "bridge").id ∈
      pruneNetworksSelect [NetworkData.init "n1" "old" "map[]" "bridge"]
        ([NetworkData.init "n1" "old" "map[]" "bridge"].filter
          fun i => (fun _ : String => true) i.created) :=
  prune_networks_select_spec.2 _ (fun _ => true) _
    (List.mem_singleton.mpr rfl) (Or.inl rfl)

/-- The sixty-four character generated volume name of the C6 instance. -/
def c64name : String :=
  "0123456789012345678901234567890123456789012345678901234567890123"

/-- The C6 volume inventory: an old user-named volume and an old volume
with a sixty-four character generated name. -/
def volC6data : List VolumeData := [⟨"my-data", "old"⟩, ⟨c64name, "old"⟩]

/-- Age oracle for the C6 instance. -/
def oldC6 : String → Bool := fun s => s == "old"

/-- C6 (confirmed).  For every dangling-volume inventory, a name is
selected iff it names an old volume and, unless aggressive, has length at
least 64 (names shorter than the threshold are user-assigned and spared);
concretely, with the C6 inventory the non-aggressive selection is exactly
the 64-character name and the aggressive selection is both volumes. -/
theorem prune_volumes_select_spec :
    (∀ (volume_data : List VolumeData) (oldB : String → Bool)
       (aggressive : Bool) (x : String),
      x ∈ pruneVolumesSelect volume_data
          (volume_data.filter fun v => oldB v.created) aggressive ↔
        ((∃ v ∈ volume_data, v.name = x ∧ oldB v.created = true) ∧
         (aggressive = true ∨ ¬ x.data.length < 64))) ∧
    pruneVolumesSelect volC6data (volC6data.filter fun v => oldC6 v.created)
      false = [c64name] ∧
    pruneVolumesSelect volC6data (volC6data.filter fun v => oldC6 v.created)
      true = ["my-data", c64name] := by
  refine ⟨?_, rfl, rfl⟩
  intro volume_data oldB aggressive x
  unfold pruneVolumesSelect
  cases aggressive with
  | true =>
    rw [if_pos rfl, mem_dedup_map_filter]
    constructor
    · rintro ⟨v, hv, rfl, hold⟩
      exact ⟨⟨v, hv, rfl, hold⟩, Or.inl rfl⟩
    · rintro ⟨⟨v, hv, rfl, hold⟩, _⟩
      exact ⟨v, hv, rfl, hold⟩
  | false =>
    rw [if_neg (by decide), List.mem_filter]
    simp only [decide_eq_true_eq]
    rw [mem_dedup_map_filter, mem_dedup_map_filter]
    simp only [decide_eq_true_eq]
    constructor
    · rintro ⟨⟨v, hv, rfl, hold⟩, hnotnamed⟩
      refine ⟨⟨v, hv, rfl, hold⟩, Or.inr ?_⟩
      intro hshort
      exact hnotnamed ⟨v, hv, rfl, hshort⟩
    · rintro ⟨⟨v, hv, rfl, hold⟩, hlen⟩
      refine ⟨⟨v, hv, rfl, hold⟩, ?_⟩
      rintro ⟨w, hw, hwx, hwshort⟩
      rcases hlen with hlen | hlen
      · cases hlen
      · rw [hwx] at hwshort
        exact hlen hwshort

/-- Witness for C6: the characterization applied at the 64-character name
in the non-aggressive mode, the existential discharged concretely. -/
theorem prune_volumes_select_spec_witness :
    c64name ∈ pruneVolumesSelect volC6data
      (volC6data.filter fun v => oldC6 v.created) false :=
  (prune_volumes_select_spec.1 volC6data oldC6 false c64name).mpr
    ⟨⟨⟨c64name, "old"⟩, by decide, rfl, by decide⟩, Or.inr (by decide)⟩

/-- The C2 image inventory: A (untagged, nominally used, not old), B
(untagged, old, unused, parent A), C (tagged, old, unused).  The prefixed
forms exercise the constructor normalization. -/
def exImages : List ImageData :=
  [ImageData.init "sha256:aaa" "" "new" "",
   ImageData.init "sha256:bbb" "sha256:aaa" "old" "",
   ImageData.init "ccc" "" "old" "[app:latest]"]

/-- Age oracle for the C2 instance. -/
def exOld : String → Bool := fun s => s == "old"

theorem firstOccur_of_nodup {l : List String} (h : l.Nodup) :
    firstOccur l = l := by
  induction l with
  | nil => rfl
  | cons a as ih =>
    rcases List.nodup_cons.mp h with ⟨ha, has⟩
    unfold firstOccur
    rw [ih has]
    congr 1
    rw [List.filter_eq_self]
    intro b hb
    simp only [decide_eq_true_eq]
    intro hba
    exact ha (hba ▸ hb)

theorem imgLookup_of_nodup {l : List ImageData}
    (h : (l.map fun i => i.id).Nodup) {j : ImageData} (hj : j ∈ l) :
    imgLookup l j.id = some j := by
  induction l with
  | nil => cases hj
  | cons a as ih =>
    rw [List.map_cons, List.nodup_cons] at h
    rcases h with ⟨ha, has⟩
    unfold imgLookup
    rw [List.reverse_cons, List.find?_append]
    rcases List.mem_cons.mp hj with rfl | hj₂
    · have hnone : as.reverse.find? (fun i => i.id == j.id) = none := by
        rw [List.find?_eq_none]
        intro x hx hbeq
        exact ha (List.mem_map.mpr ⟨x, List.mem_reverse.mp hx,
          beq_iff_eq.mp hbeq⟩)
      rw [hnone]
      simp only [Option.none_or, List.find?_cons, beq_self_eq_true]
    · have hres : as.reverse.find? (fun i => i.id == j.id) = some j := ih has hj₂
      rw [hres]
      rfl

/-- On an inventory with pairwise distinct identifiers the image dictionary
is the inventory itself. -/
theorem dictValues_eq_self {l : List ImageData}
    (h : (l.map fun i => i.id).Nodup) : dictValues l = l := by
  unfold dictValues dictKeys
  rw [firstOccur_of_nodup h]
  have key : ∀ j ∈ l, imgLookup l j.id = some j :=
    fun j hj => imgLookup_of_nodup h hj
  suffices haux : ∀ ls : List ImageData,
      (∀ j ∈ ls, imgLookup l j.id = some j) →
      (ls.map fun i => i.id).filterMap (fun k => imgLookup l k) = ls from
    haux l key
  intro ls
  induction ls with
  | nil => intro _; rfl
  | cons a as ih =>
    intro hls
    rw [List.map_cons, List.filterMap_cons]
    simp only [hls a (List.mem_cons_self a as)]
    congr 1
    exact ih (fun j hj => hls j (List.mem_cons_of_mem a hj))

/-- C2 (confirmed).  For every parsed image inventory whose lineage walk
completes, the selection is characterized over the image dictionary (one
record per identifier, the last parsed record winning, exactly as the dict
comprehension of the source builds it): an identifier is selected iff it is
the id of an old dictionary record, is in no ancestor chain of a
nominally-used image (the chain of an image being itself and every ancestor
reached by following parent links until an image with no parent), and,
unless aggressive, is the id of an untagged dictionary record.  On an
inventory with pairwise distinct ids the dictionary is the inventory
itself.  On the concrete inventory the non-aggressive selection is exactly
B and the aggressive selection is exactly B and C. -/
theorem prune_images_select_spec :
    (∀ (parsed_images : List ImageData) (nominally_used : List String)
       (oldB : String → Bool) (aggressive : Bool) (res : List String),
      pruneImagesSelect parsed_images nominally_used oldB aggressive =
        .ok res →
      ∀ x, x ∈ res ↔
        ((∃ i ∈ dictValues parsed_images, i.id = x ∧ oldB i.created = true) ∧
         (¬ ∃ u ∈ nominally_used, ∃ img,
            imgLookup (dictValues parsed_images) u = some img ∧
            InChain (dictValues parsed_images) img x) ∧
         (aggressive = true ∨
          ∃ i ∈ dictValues parsed_images, i.id = x ∧ i.repo_tags = ""))) ∧
    (∀ l : List ImageData, (l.map fun i => i.id).Nodup →
      dictValues l = l) ∧
    pruneImagesSelect exImages ["aaa"] exOld false = .ok ["bbb"] ∧
    pruneImagesSelect exImages ["aaa"] exOld true = .ok ["bbb", "ccc"] := by
  refine ⟨?_, fun l h => dictValues_eq_self h, rfl, rfl⟩
  intro parsed_images nominally_used oldB aggressive res h x
  unfold pruneImagesSelect at h
  cases hall : allUsedImages (dictValues parsed_images)
      (dictValues parsed_images).length nominally_used with
  | error e => simp only [hall] at h; cases h
  | ok all_used =>
    simp only [hall] at h
    cases h
    unfold pruneImagesSelectCore
    cases aggressive with
    | true =>
      rw [if_pos rfl, List.mem_filter]
      simp only [decide_eq_true_eq]
      rw [mem_dedup_map_filter, allUsedImages_mem_iff hall x]
      simp only [eq_self_iff_true, true_or, and_true]
    | false =>
      rw [if_neg (by decide), List.mem_filter]
      simp only [decide_eq_true_eq]
      rw [List.mem_filter]
      simp only [decide_eq_true_eq]
      rw [mem_dedup_map_filter, mem_dedup_map_filter,
        allUsedImages_mem_iff hall x]
      simp only [decide_eq_true_eq, Bool.false_eq_true, false_or]
      tauto

/-- Witness for C2: the characterization applied to the concrete inventory
in non-aggressive mode at identifier bbb, the selection hypothesis
discharged by evaluation (on this duplicate-free inventory the dictionary
coincides with the inventory). -/
theorem prune_images_select_spec_witness :
    (∃ i ∈ dictValues exImages, i.id = "bbb" ∧ exOld i.created = true) ∧
    (¬ ∃ u ∈ ["aaa"], ∃ img,
       imgLookup (dictValues exImages) u = some img ∧
       InChain (dictValues exImages) img "bbb") ∧
    (false = true ∨
     ∃ i ∈ dictValues exImages, i.id = "bbb" ∧ i.repo_tags = "") :=
  (prune_images_select_spec.1 exImages ["aaa"] exOld false ["bbb"] rfl
    "bbb").mp (List.mem_singleton.mpr rfl)

/-! ## Fail-fast driver (C9) -/

/-- The all-failing oracle for the C9 witness. -/
def execTimeoutO : ExecT := fun _ => .error .timeoutExpired

/-- The never-parsing timestamp oracle. -/
def tparseNone : TParse := fun _ => none

/-- C9 (confirmed).  A failure in any one of the four pruning procedures
propagates out of the driver: the run result is that failure and the list
of commands issued by the whole run is exactly the concatenation of the
logs of the procedures up to and including the failing one, so no command
of any later procedure in the fixed order is issued and nothing is
retried. -/
theorem main_fail_fast :
    (∀ (exec : ExecT) (tparse : TParse) (now grace : Int) (aggressive : Bool)
       (e : Err) (L1 : List String),
      prune_containers exec tparse now grace = (.error e, L1) →
      main exec tparse now grace aggressive = (.error e, L1)) ∧
    (∀ (exec : ExecT) (tparse : TParse) (now grace : Int) (aggressive : Bool)
       (c L1 : List String) (e : Err) (L2 : List String),
      prune_containers exec tparse now grace = (.ok c, L1) →
      prune_images exec tparse now grace aggressive = (.error e, L2) →
      main exec tparse now grace aggressive = (.error e, L1 ++ L2)) ∧
    (∀ (exec : ExecT) (tparse : TParse) (now grace : Int) (aggressive : Bool)
       (c L1 i L2 : List String) (e : Err) (L3 : List String),
      prune_containers exec tparse now grace = (.ok c, L1) →
      prune_images exec tparse now grace aggressive = (.ok i, L2) →
      prune_networks exec tparse now grace = (.error e, L3) →
      main exec tparse now grace aggressive = (.error e, L1 ++ L2 ++ L3)) ∧
    (∀ (exec : ExecT) (tparse : TParse) (now grace : Int) (aggressive : Bool)
       (c L1 i L2 n L3 : List String) (e : Err) (L4 : List String),
      prune_containers exec tparse now grace = (.ok c, L1) →
      prune_images exec tparse now grace aggressive = (.ok i, L2) →
      prune_networks exec tparse now grace = (.ok n, L3) →
      prune_volumes exec tparse now grace aggressive = (.error e, L4) →
      main exec tparse now grace aggressive = (.error e, L1 ++ L2 ++ L3 ++ L4)) := by
  refine ⟨?_, ?_, ?_, ?_⟩
  · intro exec tparse now grace aggressive e L1 h1
    unfold main
    simp only [h1]
  · intro exec tparse now grace aggressive c L1 e L2 h1 h2
    unfold main
    simp only [h1, h2]
  · intro exec tparse now grace aggressive c L1 i L2 e L3 h1 h2 h3
    unfold main
    simp only [h1, h2, h3]
  · intro exec tparse now grace aggressive c L1 i L2 n L3 e L4 h1 h2 h3 h4
    unfold main
    simp only [h1, h2, h3, h4]

/-- Witness for C9: with an oracle whose every command times out, the run
fails with the timeout after the very first command and issues nothing
else. -/
theorem main_fail_fast_witness :
    main execTimeoutO tparseNone 0 0 false =
      (.error .timeoutExpired, [cmdContainerLs]) :=
  main_fail_fast.1 execTimeoutO tparseNone 0 0 false .timeoutExpired
    [cmdContainerLs] rfl

/-! ## No deletion command on an empty prunable set (C10) -/

/-- Recognizer for the four deletion commands the source can issue; every
other command the source builds is a read (ls or inspect). -/
def isDeletionCmd (c : String) : Bool :=
  "docker rm ".data.isPrefixOf c.data ||
  "docker rmi -f ".data.isPrefixOf c.data ||
  "docker network rm ".data.isPrefixOf c.data ||
  "docker volume rm -f ".data.isPrefixOf c.data

theorem not_isPre_append {p a : List Char} (b : List Char)
    (hlen : p.length ≤ a.length) (h : p.isPrefixOf a = false) :
    p.isPrefixOf (a ++ b) = false := by
  cases hab : p.isPrefixOf (a ++ b) with
  | false => rfl
  | true =>
    have hp : p <+: a ++ b := List.isPrefixOf_iff_prefix.mp hab
    have he : p = (a ++ b).take p.length := List.prefix_iff_eq_take.mp hp
    rw [List.take_append_of_le_length hlen] at he
    have : p <+: a := List.prefix_iff_eq_take.mpr he
    rw [List.isPrefixOf_iff_prefix.mpr this] at h
    cases h

/-- A command built by appending identifiers to a read command of length at
least twenty characters is never a deletion command when its fixed part is
not. -/
theorem isDeletionCmd_append {a : String} (x : String)
    (h : isDeletionCmd a = false) (hlen : 20 ≤ a.data.length) :
    isDeletionCmd (a ++ x) = false := by
  unfold isDeletionCmd at h ⊢
  rw [String.data_append]
  simp only [Bool.or_eq_false_iff] at h ⊢
  obtain ⟨⟨⟨h1, h2⟩, h3⟩, h4⟩ := h
  refine ⟨⟨⟨not_isPre_append _ (le_trans (by decide) hlen) h1,
    not_isPre_append _ (le_trans (by decide) hlen) h2⟩,
    not_isPre_append _ (le_trans (by decide) hlen) h3⟩,
    not_isPre_append _ (le_trans (by decide) hlen) h4⟩

/-- The second component of a logged computation built with bindR satisfies
a predicate whenever the log of the first computation does and the
continuation preserves it from any log. -/
theorem bindR_pred {α β : Type} {P : String → Prop}
    {x : Except Err α × List String}
    {f : α → List String → Except Err β × List String}
    (hx : ∀ c ∈ x.2, P c)
    (hf : ∀ a log, (∀ c ∈ log, P c) → ∀ c ∈ (f a log).2, P c) :
    ∀ c ∈ (bindR x f).2, P c := by
  rcases x with ⟨r, log⟩
  cases r with
  | error e => exact hx
  | ok a => exact hf a log hx

theorem getLines_log (exec : ExecT) (cmd : String) (log : List String) :
    (getLines exec cmd log).2 = log ++ [cmd] := by
  unfold getLines
  cases exec cmd <;> rfl

/-- Extend a log predicate across the one command getLines appends. -/
theorem getLines_pred {P : String → Prop} {exec : ExecT} {cmd : String}
    {log : List String} (hlog : ∀ c ∈ log, P c) (hcmd : P cmd) :
    ∀ c ∈ (getLines exec cmd log).2, P c := by
  rw [getLines_log]
  intro c hc
  rcases List.mem_append.mp hc with h | h
  · exact hlog c h
  · rcases List.mem_singleton.mp h with rfl
    exact hcmd

/-- Every command issued by the container-gathering phase is a read. -/
theorem prune_containers_gather_queries (exec : ExecT) (tparse : TParse)
    (now grace : Int) :
    ∀ c ∈ (prune_containers_gather exec tparse now grace).2,
      isDeletionCmd c = false := by
  unfold prune_containers_gather
  refine bindR_pred (getLines_pred (fun c hc => absurd hc (List.not_mem_nil c))
    (by decide)) ?_
  intro l1 log1 hlog1
  refine bindR_pred (getLines_pred hlog1 (by decide)) ?_
  intro l2 log2 hlog2
  refine bindR_pred ?_ ?_
  · split_ifs with hnr
    · exact hlog2
    · refine bindR_pred (getLines_pred hlog2
        (by exact isDeletionCmd_append _ (by decide) (by decide))) ?_
      intro ls log3 hlog3
      exact hlog3
  · intro container_data log4 hlog4
    refine bindR_pred hlog4 ?_
    intro old_data log5 hlog5
    exact hlog5

/-- Every command issued by the image-gathering phase is a read. -/
theorem prune_images_gather_queries (exec : ExecT) (tparse : TParse)
    (now grace : Int) (aggressive : Bool) :
    ∀ c ∈ (prune_images_gather exec tparse now grace aggressive).2,
      isDeletionCmd c = false := by
  unfold prune_images_gather
  refine bindR_pred (getLines_pred (fun c hc => absurd hc (List.not_mem_nil c))
    (by decide)) ?_
  intro l1 log1 hlog1
  refine bindR_pred (getLines_pred hlog1 (by decide)) ?_
  intro l2 log2 hlog2
  refine bindR_pred ?_ ?_
  · split_ifs with hne
    · exact hlog2
    · refine bindR_pred (getLines_pred hlog2
        (by exact isDeletionCmd_append _ (by decide) (by decide))) ?_
      intro ls log3 hlog3
      exact hlog3
  · intro nominally_used log4 hlog4
    refine bindR_pred ?_ ?_
    · split_ifs with hni
      · exact hlog4
      · refine bindR_pred (getLines_pred hlog4
          (by exact isDeletionCmd_append _ (by decide) (by decide))) ?_
        intro ls log5 hlog5
        exact hlog5
    · intro image_data log6 hlog6
      refine bindR_pred hlog6 ?_
      intro all_used log7 hlog7
      refine bindR_pred hlog7 ?_
      intro old_list log8 hlog8
      exact hlog8

/-- Every command issued by the network-gathering phase is a read. -/
theorem prune_networks_gather_queries (exec : ExecT) (tparse : TParse)
    (now grace : Int) :
    ∀ c ∈ (prune_networks_gather exec tparse now grace).2,
      isDeletionCmd c = false := by
  unfold prune_networks_gather
  refine bindR_pred (getLines_pred (fun c hc => absurd hc (List.not_mem_nil c))
    (by decide)) ?_
  intro l1 log1 hlog1
  refine bindR_pred ?_ ?_
  · split_ifs with hne
    · exact hlog1
    · refine bindR_pred (getLines_pred hlog1
        (by exact isDeletionCmd_append _ (by decide) (by decide))) ?_
      intro ls log2 hlog2
      exact hlog2
  · intro network_data log3 hlog3
    refine bindR_pred hlog3 ?_
    intro old_list log4 hlog4
    exact hlog4

/-- Every command issued by the volume-gathering phase is a read. -/
theorem prune_volumes_gather_queries (exec : ExecT) (tparse : TParse)
    (now grace : Int) (aggressive : Bool) :
    ∀ c ∈ (prune_volumes_gather exec tparse now grace aggressive).2,
      isDeletionCmd c = false := by
  unfold prune_volumes_gather
  refine bindR_pred (getLines_pred (fun c hc => absurd hc (List.not_mem_nil c))
    (by decide)) ?_
  intro l1 log1 hlog1
  refine bindR_pred ?_ ?_
  · split_ifs with hne
    · exact hlog1
    · refine bindR_pred (getLines_pred hlog1
        (by exact isDeletionCmd_append _ (by decide) (by decide))) ?_
      intro ls log2 hlog2
      exact hlog2
  · intro volume_data log3 hlog3
    refine bindR_pred hlog3 ?_
    intro old_list log4 hlog4
    exact hlog4

/-- The all-empty oracle for the C10 witness: every command succeeds with
empty output. -/
def execEmptyO : ExecT := fun _ => .ok ⟨"", "", 0⟩

/-- C10 (confirmed).  For each of the four pruning procedures, whenever the
computed prunable set is empty the procedure returns the empty tuple with
the same command log as its gathering phase, and that log contains no
deletion command at all: the external state is left unchanged by the
procedure. -/
theorem empty_prunable_no_deletion :
    (∀ (exec : ExecT) (tparse : TParse) (now grace : Int) (log : List String),
      prune_containers_gather exec tparse now grace = (.ok [], log) →
      prune_containers exec tparse now grace = (.ok [], log) ∧
      ∀ c ∈ log, isDeletionCmd c = false) ∧
    (∀ (exec : ExecT) (tparse : TParse) (now grace : Int) (aggressive : Bool)
       (log : List String),
      prune_images_gather exec tparse now grace aggressive = (.ok [], log) →
      prune_images exec tparse now grace aggressive = (.ok [], log) ∧
      ∀ c ∈ log, isDeletionCmd c = false) ∧
    (∀ (exec : ExecT) (tparse : TParse) (now grace : Int) (log : List String),
      prune_networks_gather exec tparse now grace = (.ok [], log) →
      prune_networks exec tparse now grace = (.ok [], log) ∧
      ∀ c ∈ log, isDeletionCmd c = false) ∧
    (∀ (exec : ExecT) (tparse : TParse) (now grace : Int) (aggressive : Bool)
       (log : List String),
      prune_volumes_gather exec tparse now grace aggressive = (.ok [], log) →
      prune_volumes exec tparse now grace aggressive = (.ok [], log) ∧
      ∀ c ∈ log, isDeletionCmd c = false) := by
  refine ⟨?_, ?_, ?_, ?_⟩
  · intro exec tparse now grace log h
    constructor
    · unfold prune_containers
      simp only [h, bindR, if_true]
    · have hq := prune_containers_gather_queries exec tparse now grace
      rw [h] at hq
      exact hq
  · intro exec tparse now grace aggressive log h
    constructor
    · unfold prune_images
      simp only [h, bindR, if_true]
    · have hq := prune_images_gather_queries exec tparse now grace aggressive
      rw [h] at hq
      exact hq
  · intro exec tparse now grace log h
    constructor
    · unfold prune_networks
      simp only [h, bindR, if_true]
    · have hq := prune_networks_gather_queries exec tparse now grace
      rw [h] at hq
      exact hq
  · intro exec tparse now grace aggressive log h
    constructor
    · unfold prune_volumes
      simp only [h, bindR, if_true]
    · have hq := prune_volumes_gather_queries exec tparse now grace aggressive
      rw [h] at hq
      exact hq

/-- Witness for C10: against the oracle that answers every query with empty
output, the container procedure computes an empty prunable set, returns the
empty tuple and issues exactly its two listing queries. -/
theorem empty_prunable_no_deletion_witness :
    prune_containers execEmptyO tparseNone 0 0 =
      (.ok [], [cmdContainerLs, cmdContainerLsA]) :=
  (empty_prunable_no_deletion.1 execEmptyO tparseNone 0 0
    [cmdContainerLs, cmdContainerLsA] rfl).1

end Dockerclean
